import Mathlib

/-!
Verification development for the `putapi` proxy (OpenAI-compatible proxy in
front of the Puter drivers API).

Shallow embedding of the core components:
 - JavaScript values (`JSValue`) as far as the proxy inspects them
   (JSON-parsed request/response payloads);
 - the credential pool (`src/api/_lib/tokenPool.js`): `parseTokens`,
   `initTokenPool`, `getToken`, `reportTokenResult`;
 - the chat-completions endpoint (`src/api/v1/chat/completions.js`):
   content normalization, service resolution, retry orchestration and the
   SSE stream relay `streamAsOpenAI`;
 - the embeddings normalization (`src/api/v1/embeddings.js`, the
   `/drivers/call` variant).

Machine integers are modeled as `Nat` (timestamps, HTTP statuses, millisecond
durations are nonnegative and never near overflow in the source).  JavaScript
string operations are modeled over `List Char`; the ASCII whitespace subset
stands in for the JS `\s` class (the credential/line data in scope is ASCII).
`JSON.parse` inside the stream relay is an abstract parameter (`tryParse`)
because its output never influences the relay's control flow, only frame
text; theorems quantify over it.
-/

/-- JavaScript values as the proxy observes them after JSON parsing.
`null` also stands for `undefined`: the source only ever distinguishes them
through nullish (`??`, `?.`) and truthiness checks, which treat both alike. -/
inductive JSValue where
  | null : JSValue
  | bool : Bool → JSValue
  | num : Int → JSValue
  | str : String → JSValue
  | arr : List JSValue → JSValue
  | obj : List (String × JSValue) → JSValue
deriving Repr

/-- ASCII approximation of the JS `\s` character class / `trim` whitespace. -/
def jsIsSpace (c : Char) : Bool :=
  c == ' ' || c == '\t' || c == '\n' || c == '\r' || c == '\x0c' || c == '\x0b'

/-- Model of `String.prototype.trimEnd` over char lists. -/
def trimEndChars (l : List Char) : List Char :=
  (l.reverse.dropWhile jsIsSpace).reverse

/-- Model of `String.prototype.trim` over char lists. -/
def trimChars (l : List Char) : List Char :=
  trimEndChars (l.dropWhile jsIsSpace)

/-- Model of `String.prototype.includes` (substring test) over char lists. -/
def containsSub (hay needle : List Char) : Bool :=
  hay.tails.any (fun t => needle.isPrefixOf t)

/-- Model of `String.prototype.startsWith` over whole strings. -/
def startsWithChars (s p : String) : Bool :=
  p.data.isPrefixOf s.data

/-- Model of `String.prototype.toLowerCase` (ASCII range suffices for the model). -/
def lowerChars (l : List Char) : List Char :=
  l.map Char.toLower

/-- Split a char list at every separator character (`String.prototype.split`
on a character-class regex; a `+`-quantified regex differs from per-character
splitting only by the empty pieces, which every caller filters out). -/
def splitOnPred (p : Char → Bool) : List Char → List (List Char)
  | [] => [[]]
  | c :: cs =>
    if p c then [] :: splitOnPred p cs
    else
      match splitOnPred p cs with
      | [] => [[c]]
      | l :: ls => (c :: l) :: ls

/-- Join with a separator (`Array.prototype.join`). -/
def joinSep (sep : String) : List String → String
  | [] => ""
  | [s] => s
  | s :: ss => s ++ sep ++ joinSep sep ss

/-- Property lookup on an object field list (first matching key wins, as in a
well-formed JS object whose keys are unique). -/
def lookupField (k : String) : List (String × JSValue) → JSValue
  | [] => .null
  | (k', v) :: fs => if k' = k then v else lookupField k fs

/-- Model of `j?.k` — optional property access; anything that is not an object (or an
object without the key) yields `undefined`, modeled as `.null`. -/
def jsField (j : JSValue) (k : String) : JSValue :=
  match j with
  | .obj fs => lookupField k fs
  | _ => .null

/-- Model of `j?.[i]` — optional index access on arrays. -/
def jsIndex (j : JSValue) (i : Nat) : JSValue :=
  match j with
  | .arr l => (l[i]?).getD .null
  | _ => .null

/-- JS truthiness. -/
def jsTruthy : JSValue → Bool
  | .null => false
  | .bool b => b
  | .num n => !(n == 0)
  | .str s => !(s == "")
  | .arr _ => true
  | .obj _ => true

/-- Nullish test (`== null`, the guard of `??` and `?.`). -/
def JSValue.isNull : JSValue → Bool
  | .null => true
  | _ => false

/-- Model of `typeof v === 'number'`. -/
def JSValue.isNum : JSValue → Bool
  | .num _ => true
  | _ => false

mutual

/-- Model of `String(v)`: array elements display recursively, joined by `,`, with
`null`/`undefined` elements displaying as the empty string. -/
def jsToString : JSValue → String
  | .null => "null"
  | .bool b => if b then "true" else "false"
  | .num n => toString n
  | .str s => s
  | .arr l => joinSep "," (jsToStringElems l)
  | .obj _ => "[object Object]"

/-- Display of the elements of an array for `String(...)`. -/
def jsToStringElems : List JSValue → List String
  | [] => []
  | v :: vs => (if v.isNull then "" else jsToString v) :: jsToStringElems vs

end

/-- JSON string escaping for `JSON.stringify`. -/
def escapeJsonChar (c : Char) : String :=
  if c = '"' then "\\\""
  else if c = '\\' then "\\\\"
  else if c = '\n' then "\\n"
  else if c = '\r' then "\\r"
  else if c = '\t' then "\\t"
  else String.singleton c

/-- Quote a string as a JSON literal. -/
def quoteJson (s : String) : String :=
  "\"" ++ String.join (s.data.map escapeJsonChar) ++ "\""

mutual

/-- Model of `JSON.stringify` (our values are finite trees with no cycles, so the
source's `catch` around `stringify` is unreachable in the model). -/
def jsonStringify : JSValue → String
  | .null => "null"
  | .bool b => if b then "true" else "false"
  | .num n => toString n
  | .str s => quoteJson s
  | .arr l => "[" ++ joinSep "," (jsonStringifyElems l) ++ "]"
  | .obj fs => "\x7b" ++ joinSep "," (jsonStringifyFields fs) ++ "\x7d"

/-- Model of `JSON.stringify` of the elements of an array. -/
def jsonStringifyElems : List JSValue → List String
  | [] => []
  | v :: vs => jsonStringify v :: jsonStringifyElems vs

/-- Model of `JSON.stringify` of the key/value pairs of an object. -/
def jsonStringifyFields : List (String × JSValue) → List String
  | [] => []
  | (k, v) :: fs => (quoteJson k ++ ":" ++ jsonStringify v) :: jsonStringifyFields fs

end

/-- One element of the `value.map(...)` callback in `normalizeContent`
(`src/api/v1/chat/completions.js` lines 37-41): falsy parts become `''`,
strings pass through, objects (arrays included — `typeof [] === 'object'`)
yield `p.text || p.content || JSON.stringify(p)`, anything else `String(p)`. -/
def contentPartValue (p : JSValue) : JSValue :=
  if !jsTruthy p then .str ""
  else
    match p with
    | .str s => .str s
    | .obj _ | .arr _ =>
      let t := jsField p "text"
      if jsTruthy t then t
      else
        let c := jsField p "content"
        if jsTruthy c then c else .str (jsonStringify p)
    | _ => .str (jsToString p)

/-- Model of `Array.prototype.join` converts each element: `null`/`undefined` become
`''`, everything else `String(x)`. -/
def joinElemString (v : JSValue) : String :=
  match v with
  | .null => ""
  | _ => jsToString v

/-- Model of `normalizeContent` (`src/api/v1/chat/completions.js` lines 33-45). -/
def normalizeContent (v : JSValue) : String :=
  match v with
  | .null => ""
  | .str s => s
  | .arr parts => String.join (parts.map (fun p => joinElemString (contentPartValue p)))
  | _ => jsonStringify v

/-! ## Credential pool (`src/api/_lib/tokenPool.js`) -/

/-- Default cooldown: 15 minutes in milliseconds. -/
def DEFAULT_COOLDOWN_MS : Nat := 15 * 60 * 1000

/-- One credential entry of the pool.  `lastError` (a status/text/timestamp
record or `null`) is flattened into three fields, `lastErrorStatus = none`
standing for `lastError = null`. -/
structure TokenEntry where
  token : String
  disabledUntil : Nat
  failCount : Nat
  lastOkTs : Nat
  lastErrorStatus : Option Nat
  lastErrorText : String
  lastErrorTs : Nat
deriving Repr, DecidableEq

/-- The entry built for a configured token at (re)initialization
(`tokenPool.js` line 22). -/
def mkEntry (t : String) : TokenEntry :=
  { token := t, disabledUntil := 0, failCount := 0, lastOkTs := 0,
    lastErrorStatus := none, lastErrorText := "", lastErrorTs := 0 }

/-- The module-level pool state (`tokenPool.js` line 5); the polling flag is
out of scope (background health checks are network I/O). -/
structure PoolState where
  tokens : List TokenEntry
  rrIndex : Nat
deriving Repr, DecidableEq

/-- First-occurrence deduplication (the `seen` set of `parseTokens`). -/
def dedupFirst (seen : List String) : List String → List String
  | [] => []
  | t :: ts => if t ∈ seen then dedupFirst seen ts else t :: dedupFirst (t :: seen) ts

/-- Model of `parseTokens` (`tokenPool.js` lines 7-14): split the configured raw
credential string on `[\n,\s]+`, trim, drop empties, dedup preserving order.
The raw string (`PUTER_TOKENS || PUTER_TOKEN || ''`) is a parameter. -/
def parseTokens (raw : String) : List String :=
  let parts := (splitOnPred (fun c => jsIsSpace c || c == ',') raw.data).map
    (fun piece => (trimChars piece).asString)
  dedupFirst [] (parts.filter (fun s => !(s == "")))

/-- Model of `initTokenPool` (`tokenPool.js` lines 16-25): no-op when the configured
list is empty or matches the held tokens value-for-value; otherwise a full
replace with fresh health state and cursor 0.  (`maybeStartPolling` is
network-side and out of scope.) -/
def initTokenPool (raw : String) (st : PoolState) : PoolState :=
  let toks := parseTokens raw
  if toks.isEmpty then st
  else if st.tokens.map (·.token) = toks then st
  else { tokens := toks.map mkEntry, rrIndex := 0 }

/-- The selection guard `!t.disabledUntil || t.disabledUntil <= now`
(`tokenPool.js` line 36). -/
def entryUsable (t : TokenEntry) (now : Nat) : Bool :=
  t.disabledUntil == 0 || decide (t.disabledUntil ≤ now)

/-- The round-robin scan of `getToken` (`tokenPool.js` lines 33-40): probe
`(rrIndex + i) % length` for `i = 0, 1, ...` (the remaining probe count is the
second argument, initially `length`), returning the first usable index. -/
def scanUsable (ts : List TokenEntry) (now start : Nat) : Nat → Nat → Option Nat
  | _, 0 => none
  | i, rem + 1 =>
    match ts[(start + i) % ts.length]? with
    | some t =>
      if entryUsable t now then some ((start + i) % ts.length)
      else scanUsable ts now start (i + 1) rem
    | none => none

/-- The all-disabled fallback of `getToken` (`tokenPool.js` lines 41-42):
`best = tokens[0]`, then keep any strictly earlier `disabledUntil`. -/
def bestDisabled (b : TokenEntry) (ts : List TokenEntry) : TokenEntry :=
  ts.foldl (fun b t => if t.disabledUntil < b.disabledUntil then t else b) b

/-- Model of `getToken` (`tokenPool.js` lines 29-44) on an already-initialized pool
state (with an unchanged credential source, the leading `initTokenPool()`
call is the identity — see `initTokenPool_unchanged`).  Returns the selected
token, if any, and the updated pool state. -/
def getToken (st : PoolState) (now : Nat) : Option String × PoolState :=
  match st.tokens with
  | [] => (none, st)
  | e0 :: _ =>
    match scanUsable st.tokens now st.rrIndex 0 st.tokens.length with
    | some idx =>
      match st.tokens[idx]? with
      | some t => (some t.token, { st with rrIndex := (idx + 1) % st.tokens.length })
      | none => (none, st)
    | none => (some (bestDisabled e0 st.tokens).token, st)

/-- Successful-report entry update (`tokenPool.js` line 54). -/
def applySuccess (now : Nat) (e : TokenEntry) : TokenEntry :=
  { e with disabledUntil := 0, failCount := 0, lastOkTs := now,
           lastErrorStatus := none, lastErrorText := "", lastErrorTs := 0 }

/-- Failure-report entry update (`tokenPool.js` lines 57-65): bump the
failure count, record the error, and classify the cooldown by status. -/
def applyFailure (base now status : Nat) (errorText : String) (e : TokenEntry) : TokenEntry :=
  let fc := e.failCount + 1
  let e' := { e with failCount := fc, lastErrorStatus := some status,
                     lastErrorText := (errorText.data.take 500).asString, lastErrorTs := now }
  if status = 401 ∨ status = 403 then
    { e' with disabledUntil := now + max base (60 * 60 * 1000) }
  else if status = 429 ∨ (500 ≤ status ∧ status ≤ 599) ∨ status = 599 then
    { e' with disabledUntil := now + min (5 * 60 * 1000) (base * min 8 fc) }
  else
    { e' with disabledUntil := now + base }

/-- Update the first list element satisfying `p` (the mutation of the entry
found by `state.tokens.find(...)`; `parseTokens` deduplicates, so at most one
entry carries a given token). -/
def updateFirst (p : α → Bool) (f : α → α) : List α → List α
  | [] => []
  | x :: xs => if p x then f x :: xs else x :: updateFirst p f xs

/-- Model of `reportTokenResult` (`tokenPool.js` lines 46-66).  `base` is
`Number(PUTER_TOKEN_COOLDOWN_MS || DEFAULT_COOLDOWN_MS)` and `now` is
`Date.now()`, both parameters of the model. -/
def reportTokenResult (base now : Nat) (tok : String) (ok : Bool) (status : Nat)
    (errorText : String) (st : PoolState) : PoolState :=
  { st with tokens :=
      (updateFirst (fun e => e.token == tok)
        (fun e => if ok then applySuccess now e else applyFailure base now status errorText e)
        st.tokens) }

/-- Iterated `getToken` (for the round-robin property): the list of selection
results of `k` successive calls plus the final state. -/
def runGetToken : Nat → PoolState → Nat → List (Option String) × PoolState
  | 0, st, _ => ([], st)
  | k + 1, st, now =>
    let (o, st') := getToken st now
    let (os, stF) := runGetToken k st' now
    (o :: os, stF)

/-! ## Stream relay (`streamAsOpenAI`, `src/api/v1/chat/completions.js` lines 146-276)

The upstream body reader is modeled as a list of read events (each `chunk`
one decoded `reader.read()` value; list exhaustion is `done`; `errRead` a
read rejection).  A written SSE record is a `Frame`: every
`chat.completion.chunk` record is captured by its delta content and finish
reason (the id/created/model fields are request-constant), and the literal
`data: [DONE]` write is `doneSentinel`.  The timer-driven heartbeat frames
are not part of the write list (they interleave in real time but use the
same `chunkFrame (some "") none` shape); `heartbeatCleared` records that
`clearInterval(hb)` ran (it sits in the `finally`, so it runs on every exit
including thrown errors). -/

/-- One SSE write of the relay. -/
inductive Frame where
  | chunkFrame (deltaContent : Option String) (finishReason : Option String)
  | doneSentinel
deriving Repr, DecidableEq

/-- One upstream read. -/
inductive ReadEvent where
  | chunk (s : List Char)
  | errRead
deriving Repr

/-- Observable outcome of one streaming delivery. -/
structure RelayResult where
  writes : List Frame
  errored : Bool
  heartbeatCleared : Bool
deriving Repr, DecidableEq

/-- Split a buffer into its complete lines (the successive
`buf.indexOf('\n')` slices) and the trailing partial line. -/
def splitLines : List Char → List (List Char) × List Char
  | [] => ([], [])
  | c :: cs =>
    if c = '\n' then
      let (ls, rest) := splitLines cs
      ([] :: ls, rest)
    else
      match splitLines cs with
      | ([], rest) => ([], c :: rest)
      | (l :: ls, rest) => ((c :: l) :: ls, rest)

/-- The upstream end-of-stream sentinel payload. -/
def doneChars : List Char := "[DONE]".data

/-- Model of `line.startsWith('data:')`. -/
def isDataPrefixed (line : List Char) : Bool :=
  "data:".data.isPrefixOf line

/-- The `text` candidate extracted from one `data:` payload (lines 206-220 of
`completions.js`): `JSON.parse`, the `??` chain over
`choices[0].delta.content` / `choices[0].message.content` /
`message.content` / `content`, string-typed parses, and the raw-payload
fallback for both parse failures and null extractions.  `tryParse` stands for
`JSON.parse` (`none` = thrown). -/
def sseCandidateText (tryParse : String → Option JSValue) (payload : List Char) : JSValue :=
  match tryParse payload.asString with
  | none => .str payload.asString
  | some j =>
    let c0 := jsIndex (jsField j "choices") 0
    let t1 := jsField (jsField c0 "delta") "content"
    let t2 := jsField (jsField c0 "message") "content"
    let t3 := jsField (jsField j "message") "content"
    let t4 := jsField j "content"
    let text := if !t1.isNull then t1 else if !t2.isNull then t2
      else if !t3.isNull then t3 else t4
    let text := if text.isNull then (match j with | .str s => .str s | _ => .null) else text
    if text.isNull then .str payload.asString else text

/-- The inner `while ((idx = buf.indexOf('\n')) !== -1)` loop over the
complete lines of the buffer (lines 192-240): returns the frames written and
whether the `[DONE]` sentinel was hit (which in the source sets `buf = ''`
and breaks out of the inner loop, discarding the remaining buffered lines). -/
def handleLines (tryParse : String → Option JSValue) : List (List Char) → List Frame × Bool
  | [] => ([], false)
  | rawLine :: rest =>
    let line := trimEndChars rawLine
    if line.isEmpty then handleLines tryParse rest
    else if isDataPrefixed line then
      let payload := trimChars (line.drop 5)
      if payload = doneChars then ([], true)
      else
        let text := sseCandidateText tryParse payload
        let here := if jsTruthy text then [Frame.chunkFrame (some (jsToString text)) none] else []
        let (fs, saw) := handleLines tryParse rest
        (here ++ fs, saw)
    else
      let (fs, saw) := handleLines tryParse rest
      (Frame.chunkFrame (some (line ++ ['\n']).asString) none :: fs, saw)

/-- Process the buffered data after appending one chunk: drain complete
lines, discarding everything on the sentinel. -/
def processBuf (tryParse : String → Option JSValue) (buf : List Char) : List Frame × List Char :=
  let (lines, leftover) := splitLines buf
  let (fs, saw) := handleLines tryParse lines
  (fs, if saw then [] else leftover)

/-- The forwarding loop body of `streamAsOpenAI` (lines 185-275): consume
read events, maintaining the line buffer, with the >2048-char no-newline
force flush; on upstream end-of-body flush the partial line, write the final
`finish_reason: 'stop'` frame and the `data: [DONE]` sentinel; a read error
propagates out of the `try` (no catch), so nothing further is written. -/
def relayGo (tryParse : String → Option JSValue) : List Char → List ReadEvent → List Frame × Bool
  | buf, [] =>
    ((if buf.isEmpty then [] else [Frame.chunkFrame (some buf.asString) none]) ++
      [Frame.chunkFrame none (some "stop"), Frame.doneSentinel], false)
  | buf, ReadEvent.chunk s :: rest =>
    let (fs, buf1) := processBuf tryParse (buf ++ s)
    let (fs2, buf2) :=
      if 2048 < buf1.length && !(buf1.contains '\n') then
        ([Frame.chunkFrame (some buf1.asString) none], [])
      else ([], buf1)
    let (rs, err) := relayGo tryParse buf2 rest
    (fs ++ fs2 ++ rs, err)
  | _, ReadEvent.errRead :: _ => ([], true)

/-- Model of `streamAsOpenAI`: the immediate "open" frame (empty content), then the
forwarding loop; `clearInterval(hb)` sits in `finally` and therefore always
runs, on error exits as well. -/
def streamAsOpenAI (tryParse : String → Option JSValue) (events : List ReadEvent) : RelayResult :=
  let (ws, err) := relayGo tryParse [] events
  { writes := Frame.chunkFrame (some "") none :: ws, errored := err, heartbeatCleared := true }

/-- A `JSON.parse` stand-in that always throws; used for concrete runs whose
payloads (`hello`) are not valid JSON. -/
def tpNone : String → Option JSValue := fun _ => none

/-! ## Chat retry orchestrator (`src/api/v1/chat/completions.js` handler)

Upstream network behavior per attempt is an `AttemptIn`: the outcome the
primary `/drivers/call` and (when issued) the legacy `puter.ai` call would
produce for the token of that attempt.  `UpResp.json` is what `readJsonSafe`
yields (`.null` when the content type is not JSON or parsing fails) and
`text` what `readTextSafe` yields.  The routing wrapper (method dispatch,
CORS, proxy-key check) is out of scope per spec section 1. -/

/-- Model of `isRetryableStatus` (`completions.js` lines 142-144). -/
def isRetryableStatus (status : Nat) : Bool :=
  status == 401 || status == 403 || status == 429 ||
    (decide (500 ≤ status) && decide (status ≤ 599)) || status == 599

/-- Model of `pickServiceFromModel` (`completions.js` lines 19-31). -/
def pickServiceFromModel (modelId : String) : String :=
  let m := (lowerChars modelId.data).asString
  if m.data.contains '/' then (m.data.takeWhile (fun c => !(c == '/'))).asString
  else if startsWithChars m "claude" then "claude"
  else if startsWithChars m "gemini" then "gemini"
  else if startsWithChars m "grok" || startsWithChars m "xai" then "xai"
  else if startsWithChars m "mistral" then "mistral"
  else if startsWithChars m "deepseek" then "deepseek"
  else if startsWithChars m "openrouter" then "openrouter"
  else if startsWithChars m "qwen" then "qwen"
  else if startsWithChars m "gpt" then "openai"
  else "openai"

/-- Model of `mapOpenAIService` (`completions.js` lines 14-17); the env override
`PUTER_OPENAI_SERVICE` is a parameter. -/
def mapOpenAIService (openaiServiceEnv : Option String) (service : String) : String :=
  if service ≠ "openai" then service else openaiServiceEnv.getD "openai-completion"

/-- One tool entry of `hasSearchIntent` (`completions.js` lines 55-64).
A truthy non-string `t.function.name` would make the source throw in
`toLowerCase()` (an unmodeled crash); the model returns `false` there. -/
def toolHasSearchIntent (t : JSValue) : Bool :=
  if !jsTruthy t then false
  else if lowerChars (jsToString (jsField t "type")).data = "web_search".data then true
  else
    match jsField t "type", jsField (jsField t "function") "name" with
    | .str ty, .str n =>
      if ty == "function" && !(n == "") then
        containsSub (lowerChars n.data) "search".data ||
          containsSub (lowerChars n.data) "browse".data
      else false
    | _, _ => false

/-- Model of `hasSearchIntent` (`completions.js` lines 53-66). -/
def hasSearchIntent (tools : JSValue) : Bool :=
  match tools with
  | .arr ts => ts.any toolHasSearchIntent
  | _ => false

/-- Model of `sanitizeTools` (`completions.js` lines 68-85): `undefined` for
non-arrays, the single canonical `web_search` tool on search intent,
pass-through otherwise. -/
def sanitizeTools (tools : JSValue) (baseService : String) : Option JSValue :=
  match tools with
  | .arr _ =>
    if hasSearchIntent tools then some (.arr [.obj [("type", .str "web_search")]])
    else some tools
  | _ => none

/-- The inbound chat request fields the orchestrator reads.  `modelField`
models `body.model` (`none` = absent; non-string truthy models would crash
`toLowerCase` in the source and are out of scope). -/
structure ChatIn where
  messages : JSValue
  modelField : Option String
  streamField : JSValue
  temperature : JSValue
  maxTokens : JSValue
  tools : JSValue
  accept : String
deriving Repr

/-- Model of `model || 'gpt-5-nano'` (`completions.js` line 295). -/
def selectedModelOf (req : ChatIn) : String :=
  match req.modelField with
  | some m => if m == "" then "gpt-5-nano" else m
  | none => "gpt-5-nano"

/-- Model of `wantStream` (`completions.js` lines 307-308): the request streams only
when `body.stream === true` and the lowercased `Accept` header contains
`text/event-stream`. -/
def wantStreamOf (req : ChatIn) : Bool :=
  (match req.streamField with | .bool true => true | _ => false) &&
    containsSub (lowerChars req.accept.data) "text/event-stream".data

/-- The `args` object of the primary `puter-chat-completion` body
(`completions.js` lines 310-312); optional keys are `Option`. -/
structure PrimaryArgs where
  messages : JSValue
  model : String
  stream : Bool
  maxTokens : JSValue
  tools : Option JSValue
  temperature : Option JSValue
deriving Repr

/-- Build the primary upstream args from the request (`completions.js`
lines 295-312). `allowTempEnv` is `PUTER_OPENAI_ALLOW_TEMPERATURE === 'true'`. -/
def mkPrimaryArgs (allowTempEnv : Bool) (req : ChatIn) : PrimaryArgs :=
  let selectedModel := selectedModelOf req
  let baseService := pickServiceFromModel selectedModel
  let allowTemp := !(baseService == "openai") || allowTempEnv
  { messages := req.messages, model := selectedModel, stream := wantStreamOf req,
    maxTokens := req.maxTokens,
    tools := sanitizeTools req.tools baseService,
    temperature := if allowTemp && req.temperature.isNum then some req.temperature else none }

/-- One upstream HTTP response as the handler observes it. -/
structure UpResp where
  status : Nat
  json : JSValue
  text : String
  hasBody : Bool
deriving Repr

/-- Model of `Response.ok` (status in 200-299). -/
def UpResp.ok (r : UpResp) : Bool :=
  decide (200 ≤ r.status) && decide (r.status ≤ 299)

/-- Outcome of one `fetchUpstream` call: a response, or a thrown transport
error (all hosts failed). -/
inductive CallResult where
  | resp (r : UpResp)
  | thrown (msg : String)
deriving Repr

/-- The upstream outcomes available to one attempt (the legacy outcome is
consulted only when the source issues the legacy call). -/
structure AttemptIn where
  primary : CallResult
  legacy : CallResult
deriving Repr

/-- The handler's terminal behaviors: a streaming hand-off, a buffered
`chat.completion` JSON success (captured by its normalized content; id,
created, model echo and zero usage are request-constant), or an error
response with status and message. -/
inductive HResult where
  | streamed
  | okJson (content : String)
  | err (status : Nat) (msg : JSValue)
deriving Repr

/-- What one handler run did: final result, the `reportTokenResult`
outcome/status pairs in order, and how many upstream calls were issued. -/
structure HandlerOut where
  result : HResult
  reports : List (Bool × Nat)
  calls : Nat
deriving Repr

/-- Model of `j && typeof j === 'object' && j.success === false` (`completions.js`
lines 344, 381, 395). -/
def isEnvelopeFailure (j : JSValue) : Bool :=
  match j with
  | .arr _ | .obj _ =>
    (match jsField j "success" with | .bool false => true | _ => false)
  | _ => false

/-- Model of `j?.error?.message || JSON.stringify(j.error || j)`. -/
def envMsg (j : JSValue) : JSValue :=
  let m := jsField (jsField j "error") "message"
  if jsTruthy m then m
  else .str (jsonStringify (if jsTruthy (jsField j "error") then jsField j "error" else j))

/-- The failure marker looked for by `isNoImplError` (`completions.js`
lines 47-49). -/
def noImplNeedle : String := "No implementation available for interface `puter-chat-completion`"

/-- Model of `isNoImplError`. -/
def isNoImplError (m : JSValue) : Bool :=
  match m with
  | .str s => containsSub s.data noImplNeedle.data
  | _ => false

/-- Model of `j?.result ?? j ?? await readTextSafe(r)` (`completions.js` lines 358,
409, 434). -/
def unwrapResult (j : JSValue) (text : String) : JSValue :=
  let r := jsField j "result"
  if !r.isNull then r
  else if !j.isNull then j
  else .str text

/-- Model of `result?.message?.content ?? result?.content ?? result`. -/
def chainContent (result : JSValue) : JSValue :=
  let a := jsField (jsField result "message") "content"
  if !a.isNull then a
  else
    let b := jsField result "content"
    if !b.isNull then b else result

/-- Model of `j ? JSON.stringify(j) : await readTextSafe(r)` — the message attached
to a non-ok upstream response. -/
def httpFailMsg (r : UpResp) : JSValue :=
  if jsTruthy r.json then .str (jsonStringify r.json) else .str r.text

/-- Outcome of processing one attempt: either the handler returns, or it
falls through to the next loop iteration carrying updated `lastStatus` /
`lastMsg` (each with the reports made and upstream calls issued). -/
inductive StepRes where
  | finished (reports : List (Bool × Nat)) (calls : Nat) (res : HResult)
  | continueNext (reports : List (Bool × Nat)) (calls : Nat) (lastStatus : Nat) (lastMsg : JSValue)
deriving Repr

/-- Process one legacy (`puter.ai` interface) call outcome — the body shared
by the web-search branch (lines 336-369) and the no-implementation fallback
(lines 387-420): streaming hand-off, `success:false` envelope → continue
(502), HTTP failure → continue when retryable else surface, success →
normalized 200.  A thrown fetch lands in the attempt's `catch` (report
status 599, continue with lastStatus 502). -/
def legacyStep (wantStream : Bool) (cr : CallResult) : StepRes :=
  match cr with
  | .thrown m => .continueNext [(false, 599)] 1 502 (.str m)
  | .resp r =>
    if wantStream && r.ok && r.hasBody then .finished [(true, 200)] 1 .streamed
    else
      if isEnvelopeFailure r.json then .continueNext [(false, 502)] 1 502 (envMsg r.json)
      else if !r.ok then
        if isRetryableStatus r.status then
          .continueNext [(false, r.status)] 1 r.status (httpFailMsg r)
        else .finished [(false, r.status)] 1 (.err r.status (httpFailMsg r))
      else
        .finished [(true, 200)] 1
          (.okJson (normalizeContent (chainContent (unwrapResult r.json r.text))))

/-- Process one standard-flow attempt (lines 373-445): the primary
`puter-chat-completion` call, with the within-attempt fallback to the legacy
interface when the envelope failure message is the no-implementation
marker. -/
def primaryStep (wantStream : Bool) (a : AttemptIn) : StepRes :=
  match a.primary with
  | .thrown m => .continueNext [(false, 599)] 1 502 (.str m)
  | .resp r1 =>
    if wantStream && r1.ok && r1.hasBody then .finished [(true, 200)] 1 .streamed
    else
      if isEnvelopeFailure r1.json then
        let msg := envMsg r1.json
        if isNoImplError msg then
          match legacyStep wantStream a.legacy with
          | .finished reps c res => .finished ((false, 502) :: reps) (1 + c) res
          | .continueNext reps c ls lm => .continueNext ((false, 502) :: reps) (1 + c) ls lm
        else .continueNext [(false, 502)] 1 502 msg
      else if !r1.ok then
        if isRetryableStatus r1.status then
          .continueNext [(false, r1.status)] 1 r1.status (httpFailMsg r1)
        else .finished [(false, r1.status)] 1 (.err r1.status (httpFailMsg r1))
      else
        .finished [(true, 200)] 1
          (.okJson (normalizeContent (chainContent (unwrapResult r1.json r1.text))))

/-- One attempt (web-search requests go straight to the legacy interface,
lines 334-370). -/
def attemptStep (wantStream wantWebSearch : Bool) (a : AttemptIn) : StepRes :=
  if wantWebSearch then legacyStep wantStream a.legacy else primaryStep wantStream a

/-- The final `res.status(lastStatus).json({ error: { message: lastMsg ||
'All tokens failed', ... } })` (line 455). -/
def exhaustedErr (ls : Nat) (lm : Option JSValue) : HResult :=
  .err ls (match lm with
    | some v => if jsTruthy v then v else .str "All tokens failed"
    | none => .str "All tokens failed")

/-- The attempt loop (`completions.js` lines 329-453): fuel is the remaining
attempt budget; an exhausted `attempts` list models `getToken()` returning
null (`break`). -/
def chatLoop (wantStream wantWebSearch : Bool) :
    Nat → List AttemptIn → Nat → Option JSValue → HandlerOut
  | 0, _, ls, lm => { result := exhaustedErr ls lm, reports := [], calls := 0 }
  | _ + 1, [], ls, lm => { result := exhaustedErr ls lm, reports := [], calls := 0 }
  | fuel + 1, a :: rest, ls, lm =>
    match attemptStep wantStream wantWebSearch a with
    | .finished reps c res => { result := res, reports := reps, calls := c }
    | .continueNext reps c ls' lm' =>
      let o := chatLoop wantStream wantWebSearch fuel rest ls' (some lm')
      { result := o.result, reports := reps ++ o.reports, calls := c + o.calls }

/-- The chat handler body after the routing/key/pool guards
(`completions.js` lines 291-455): validate `messages`, compute the stream
and web-search flags, then run the attempt loop with budget
`Math.max(1, maxAttempts)` starting from `lastStatus = 502`,
`lastMsg = null`. -/
def chatHandler (maxAttempts : Nat) (req : ChatIn) (attempts : List AttemptIn) : HandlerOut :=
  match req.messages with
  | .arr _ => chatLoop (wantStreamOf req) (hasSearchIntent req.tools) (max 1 maxAttempts) attempts 502 none
  | _ => { result := .err 400 (.str "messages must be an array"), reports := [], calls := 0 }

/-! ## Embeddings normalization (`src/api/v1/embeddings.js`, `/drivers/call`
variant, lines 182-219) -/

/-- Object spread with one overriding key, `\x7b ...result, model: v \x7d`:
the overridden key keeps its position when present and is appended when
absent (JS object update semantics). -/
def setField : List (String × JSValue) → String → JSValue → List (String × JSValue)
  | [], k, v => [(k, v)]
  | (k', v') :: fs, k, v =>
    if k' = k then (k', v) :: fs else (k', v') :: setField fs k v

/-- Spread-with-override on an object value (the `result.data` guard ensures
this is only reached for objects). -/
def objSpreadSet (j : JSValue) (k : String) (v : JSValue) : JSValue :=
  match j with
  | .obj fs => .obj (setField fs k v)
  | _ => j

/-- Outcome of the embeddings normalization segment: a 200 body or the 502
unrecognized-shape error. -/
inductive EmbOut where
  | ok (body : JSValue)
  | unrecognized (details : JSValue)
deriving Repr

/-- The single-vector response body (`embeddings.js` lines 214-219). -/
def embSingleBody (vectors : JSValue) (selectedModel : String) : JSValue :=
  .obj [("object", .str "list"),
        ("data", .arr [.obj [("object", .str "embedding"), ("index", .num 0),
                             ("embedding", vectors)]]),
        ("model", .str selectedModel),
        ("usage", .obj [("prompt_tokens", .num 0), ("total_tokens", .num 0)])]

/-- The list-of-vectors response body (`embeddings.js` lines 196-201). -/
def embListBody (vecs : List JSValue) (selectedModel : String) : JSValue :=
  .obj [("object", .str "list"),
        ("data", .arr (vecs.mapIdx (fun i e =>
          .obj [("object", .str "embedding"), ("index", .num (i : Int)), ("embedding", e)]))),
        ("model", .str selectedModel),
        ("usage", .obj [("prompt_tokens", .num 0), ("total_tokens", .num 0)])]

/-- The shape dispatch of the embeddings handler on the unwrapped upstream
`result` (`embeddings.js` lines 185-219): bare array → single vector;
`result.data` an array → return `result` spread with `model: result.model ||
selectedModel`; `result.embedding` an array → single vector;
`result.embeddings` an array → indexed list; otherwise the 502
unrecognized-shape error. -/
def normalizeEmbResult (result : JSValue) (selectedModel : String) : EmbOut :=
  match result with
  | .arr _ => .ok (embSingleBody result selectedModel)
  | _ =>
    match jsField result "data" with
    | .arr _ =>
      let m := jsField result "model"
      .ok (objSpreadSet result "model" (if jsTruthy m then m else .str selectedModel))
    | _ =>
      match jsField result "embedding" with
      | .arr _ => .ok (embSingleBody (jsField result "embedding") selectedModel)
      | _ =>
        match jsField result "embeddings" with
        | .arr es => .ok (embListBody es selectedModel)
        | _ => .unrecognized result

/-! ## Helper lemmas -/

/-- With an unchanged credential source, the `initTokenPool()` call at the
top of `getToken`/`reportTokenResult` is the identity on the pool state. -/
theorem initTokenPool_unchanged (raw : String) (st : PoolState)
    (h : st.tokens.map (·.token) = parseTokens raw) : initTokenPool raw st = st := by
  unfold initTokenPool
  by_cases he : (parseTokens raw).isEmpty <;> simp [he, h]

/-- Helper: `updateFirst` rewrites exactly the first match. -/
theorem updateFirst_append (p : α → Bool) (f : α → α) (pre : List α) (e : α) (post : List α)
    (hpre : ∀ x ∈ pre, p x = false) (he : p e = true) :
    updateFirst p f (pre ++ e :: post) = pre ++ f e :: post := by
  induction pre with
  | nil => simp [updateFirst, he]
  | cons x xs ih =>
    have hx : p x = false := hpre x (by simp)
    simp only [List.cons_append, updateFirst, hx, Bool.false_eq_true, if_false]
    show x :: updateFirst p f (xs ++ e :: post) = x :: (xs ++ f e :: post)
    rw [ih (fun y hy => hpre y (by simp [hy]))]

/-! ## Claim C2 — 429 cooldown -/

/-- C2, counterexample.  The claim says a token whose failure count is 1 at a
status-429 report gets a cooldown of approximately the configured base
duration (default 15 minutes).  On the code, the very first 429 report (the
failure count becomes 1) with the default base yields
`min(5 min, base * 1) = 5 minutes = 300000 ms`, already the cap — not the
15-minute base (and not approximately so: it is a third of it). -/
theorem claim_C2_counterexample :
    (reportTokenResult DEFAULT_COOLDOWN_MS 1000 "t" false 429 ""
        { tokens := [mkEntry "t"], rrIndex := 0 }).tokens =
      [{ token := "t", disabledUntil := 1000 + 300000, failCount := 1, lastOkTs := 0,
         lastErrorStatus := some 429, lastErrorText := "", lastErrorTs := 1000 }] ∧
    (1000 + 300000) - 1000 = 300000 ∧
    DEFAULT_COOLDOWN_MS = 900000 ∧ (300000 : Nat) ≠ 900000 := by
  refine ⟨by decide, by decide, by decide, by decide⟩

/-- C2, amended: a status-429 failure report on the entry holding the token
(the first such entry; `pre` lists the entries scanned past) sets
`disabledUntil - now = min(5 minutes, base * min(8, failCount + 1))`.  With
the default 15-minute base the 5-minute cap already binds at the first 429
(failure count becoming 1), and it still binds after 5 consecutive 429s —
the claim's second half — so the cooldown is 5 minutes, not the base. -/
theorem claim_C2 (base now : Nat) (errTxt tok : String)
    (pre post : List TokenEntry) (e : TokenEntry) (rr : Nat)
    (hpre : ∀ x ∈ pre, (x.token == tok) = false)
    (he : e.token = tok) :
    ∃ e', (reportTokenResult base now tok false 429 errTxt
        { tokens := pre ++ e :: post, rrIndex := rr }).tokens = pre ++ e' :: post ∧
      e'.failCount = e.failCount + 1 ∧
      e'.disabledUntil = now + min (5 * 60 * 1000) (base * min 8 (e.failCount + 1)) ∧
      e'.disabledUntil - now ≤ 5 * 60 * 1000 ∧
      (base = DEFAULT_COOLDOWN_MS → e'.disabledUntil - now = 5 * 60 * 1000) := by
  refine ⟨applyFailure base now 429 errTxt e, ?_, ?_, ?_, ?_, ?_⟩
  · show (updateFirst (fun x => x.token == tok) _ (pre ++ e :: post)) = _
    exact updateFirst_append _ _ pre e post hpre (by simp [he])
  · simp [applyFailure]
  · simp [applyFailure]
  · simp only [applyFailure]
    norm_num
  · intro hb
    subst hb
    simp only [applyFailure, DEFAULT_COOLDOWN_MS]
    norm_num
    have h1 : 1 ≤ min 8 (e.failCount + 1) := by omega
    have h2 : 900000 ≤ 900000 * min 8 (e.failCount + 1) := by
      calc 900000 = 900000 * 1 := by omega
        _ ≤ 900000 * min 8 (e.failCount + 1) := Nat.mul_le_mul_left _ h1
    omega

/-- C2 witness: the amended statement at a concrete first-failure entry. -/
theorem claim_C2_witness :
    ∃ e', (reportTokenResult DEFAULT_COOLDOWN_MS 0 "t" false 429 ""
        { tokens := [] ++ mkEntry "t" :: [], rrIndex := 0 }).tokens = [] ++ e' :: [] ∧
      e'.failCount = (mkEntry "t").failCount + 1 ∧
      e'.disabledUntil = 0 + min (5 * 60 * 1000) (DEFAULT_COOLDOWN_MS * min 8 ((mkEntry "t").failCount + 1)) ∧
      e'.disabledUntil - 0 ≤ 5 * 60 * 1000 ∧
      (DEFAULT_COOLDOWN_MS = DEFAULT_COOLDOWN_MS → e'.disabledUntil - 0 = 5 * 60 * 1000) :=
  claim_C2 DEFAULT_COOLDOWN_MS 0 "" "t" [] [] (mkEntry "t") 0 (by simp) rfl

/-! ## Claim C6 — selection with every entry disabled -/

/-- If every entry is unusable at `now`, the round-robin scan finds nothing. -/
theorem scanUsable_all_disabled (ts : List TokenEntry) (now start : Nat)
    (h : ∀ e ∈ ts, entryUsable e now = false) :
    ∀ (rem i : Nat), scanUsable ts now start i rem = none := by
  intro rem
  induction rem with
  | zero => intro i; rfl
  | succ k ih =>
    intro i
    unfold scanUsable
    cases hg : ts[(start + i) % ts.length]? with
    | none => simp [hg]
    | some t =>
      have ht : t ∈ ts := List.getElem?_mem hg
      simp [hg, h t ht, ih]

/-- A successful scan returns an index holding a usable entry. -/
theorem scanUsable_some (ts : List TokenEntry) (now start : Nat) :
    ∀ (rem i idx : Nat), scanUsable ts now start i rem = some idx →
      ∃ t, ts[idx]? = some t ∧ entryUsable t now = true := by
  intro rem
  induction rem with
  | zero => intro i idx h; simp [scanUsable] at h
  | succ k ih =>
    intro i idx h
    unfold scanUsable at h
    cases hg : ts[(start + i) % ts.length]? with
    | none => rw [hg] at h; simp at h
    | some t =>
      rw [hg] at h
      by_cases hu : entryUsable t now
      · simp [hu] at h
        exact ⟨t, h ▸ hg, hu⟩
      · simp [hu] at h
        exact ih _ _ h

/-- The `best` fold of `getToken` returns an element of `b :: l` whose
`disabledUntil` is minimal over `b :: l`. -/
theorem bestDisabled_spec : ∀ (l : List TokenEntry) (b : TokenEntry),
    bestDisabled b l ∈ b :: l ∧
      ∀ t ∈ b :: l, (bestDisabled b l).disabledUntil ≤ t.disabledUntil := by
  intro l
  induction l with
  | nil =>
    intro b
    refine ⟨by simp [bestDisabled], ?_⟩
    intro t ht
    simp at ht
    simp [bestDisabled, ht]
  | cons x xs ih =>
    intro b
    obtain ⟨hmem, hle⟩ := ih (if x.disabledUntil < b.disabledUntil then x else b)
    have hb' := hle _ (List.mem_cons_self _ _)
    have hmin1 : (if x.disabledUntil < b.disabledUntil then x else b).disabledUntil ≤
        b.disabledUntil := by split <;> omega
    have hmin2 : (if x.disabledUntil < b.disabledUntil then x else b).disabledUntil ≤
        x.disabledUntil := by split <;> omega
    constructor
    · show bestDisabled (if x.disabledUntil < b.disabledUntil then x else b) xs ∈ b :: x :: xs
      rcases List.mem_cons.mp hmem with h | h
      · rw [h]
        split <;> simp
      · simp [h]
    · intro t ht
      show (bestDisabled (if x.disabledUntil < b.disabledUntil then x else b) xs).disabledUntil ≤
        t.disabledUntil
      rcases List.mem_cons.mp ht with h | h
      · rw [h]; exact le_trans hb' hmin1
      · rcases List.mem_cons.mp h with h' | h'
        · rw [h']; exact le_trans hb' hmin2
        · exact hle _ (List.mem_cons_of_mem _ h')

/-- On a nonempty pool, `getToken` always yields a token. -/
theorem getToken_ne_none (st : PoolState) (now : Nat) (hne : st.tokens ≠ []) :
    (getToken st now).1 ≠ none := by
  obtain ⟨e0, tl, hts⟩ := List.exists_cons_of_ne_nil hne
  cases hscan : scanUsable st.tokens now st.rrIndex 0 st.tokens.length with
  | some idx =>
    obtain ⟨t, hget, _⟩ := scanUsable_some _ _ _ _ _ _ hscan
    unfold getToken
    rw [hts] at hscan hget ⊢
    simp only [List.length_cons] at hscan
    simp [hscan, hget]
  | none =>
    unfold getToken
    rw [hts] at hscan ⊢
    simp only [List.length_cons] at hscan
    simp [hscan]

/-- With every entry unusable, `getToken` selects the fold minimum. -/
theorem getToken_all_disabled (st : PoolState) (now : Nat)
    (e0 : TokenEntry) (tl : List TokenEntry) (hts : st.tokens = e0 :: tl)
    (hall : ∀ e ∈ st.tokens, entryUsable e now = false) :
    (getToken st now).1 = some (bestDisabled e0 st.tokens).token := by
  have hscan : scanUsable st.tokens now st.rrIndex 0 st.tokens.length = none :=
    scanUsable_all_disabled st.tokens now st.rrIndex hall _ _
  unfold getToken
  rw [hts] at hscan ⊢
  simp only [List.length_cons] at hscan
  simp [hscan]

/-- C6, confirmed.  (a) `getToken` returns null exactly on the empty pool.
(b) On a nonempty pool whose entries are all disabled strictly beyond `now`
with pairwise distinct `disabledUntil` values, `getToken` returns the token
of the entry with the minimum `disabledUntil` (the strict-minimum entry). -/
theorem claim_C6 :
    (∀ (st : PoolState) (now : Nat), (getToken st now).1 = none ↔ st.tokens = []) ∧
    (∀ (st : PoolState) (now : Nat), st.tokens ≠ [] →
      (∀ e ∈ st.tokens, now < e.disabledUntil) →
      (st.tokens.map (·.disabledUntil)).Nodup →
      ∃ e ∈ st.tokens, (getToken st now).1 = some e.token ∧
        ∀ t ∈ st.tokens, t ≠ e → e.disabledUntil < t.disabledUntil) := by
  constructor
  · intro st now
    constructor
    · intro h
      by_contra hne
      exact getToken_ne_none st now hne h
    · intro h
      unfold getToken
      rw [h]
  · intro st now hne hdis hnd
    obtain ⟨e0, tl, hts⟩ := List.exists_cons_of_ne_nil hne
    have hall : ∀ e ∈ st.tokens, entryUsable e now = false := by
      intro e he
      have hlt := hdis e he
      have h0 : ¬ (e.disabledUntil == 0) = true := by simp; omega
      have h1 : ¬ (decide (e.disabledUntil ≤ now)) = true := by simp; omega
      simp [entryUsable, h0, h1]
    have hbest := bestDisabled_spec st.tokens e0
    have hbest_mem : bestDisabled e0 st.tokens ∈ st.tokens := by
      rcases List.mem_cons.mp hbest.1 with h | h
      · rw [h, hts]; exact List.mem_cons_self _ _
      · exact h
    refine ⟨bestDisabled e0 st.tokens, hbest_mem, getToken_all_disabled st now e0 tl hts hall, ?_⟩
    intro t ht htne
    have hle := hbest.2 t (List.mem_cons_of_mem _ ht)
    rcases Nat.lt_or_ge (bestDisabled e0 st.tokens).disabledUntil t.disabledUntil with h | h
    · exact h
    · exfalso
      have heq : t.disabledUntil = (bestDisabled e0 st.tokens).disabledUntil := by omega
      exact htne (List.inj_on_of_nodup_map hnd ht hbest_mem heq)

/-- C6 witness: a two-entry pool, both disabled in the future with distinct
`disabledUntil`; the claim's theorem applies, so the minimum-cooldown entry
is selected. -/
theorem claim_C6_witness :
    ∃ e ∈ ({ tokens := [{ token := "a", disabledUntil := 500, failCount := 1, lastOkTs := 0,
                          lastErrorStatus := some 429, lastErrorText := "", lastErrorTs := 0 },
                        { token := "b", disabledUntil := 300, failCount := 1, lastOkTs := 0,
                          lastErrorStatus := some 429, lastErrorText := "", lastErrorTs := 0 }],
              rrIndex := 0 } : PoolState).tokens,
      (getToken { tokens := [{ token := "a", disabledUntil := 500, failCount := 1, lastOkTs := 0,
                               lastErrorStatus := some 429, lastErrorText := "", lastErrorTs := 0 },
                             { token := "b", disabledUntil := 300, failCount := 1, lastOkTs := 0,
                               lastErrorStatus := some 429, lastErrorText := "", lastErrorTs := 0 }],
                  rrIndex := 0 } 100).1 = some e.token ∧
      ∀ t ∈ ({ tokens := [{ token := "a", disabledUntil := 500, failCount := 1, lastOkTs := 0,
                            lastErrorStatus := some 429, lastErrorText := "", lastErrorTs := 0 },
                          { token := "b", disabledUntil := 300, failCount := 1, lastOkTs := 0,
                            lastErrorStatus := some 429, lastErrorText := "", lastErrorTs := 0 }],
                rrIndex := 0 } : PoolState).tokens, t ≠ e → e.disabledUntil < t.disabledUntil :=
  claim_C6.2 _ 100 (by decide) (by decide) (by decide)

/-! ## Claim C7 — pool re-synchronization -/

/-- C7, counterexample.  The claim requires a full replace for *every*
differing configured list, "including one that has become empty".  On the
code, `initTokenPool` returns early when the parsed list is empty
(`if (!toks.length) return;`): with one held token `"a"` and an empty
credential source, the parsed list `[]` differs from `["a"]`, yet the pool
is left untouched instead of being rebuilt (and the cursor keeps its old
value 1 rather than being reset to 0). -/
theorem claim_C7_counterexample :
    initTokenPool "" { tokens := [mkEntry "a"], rrIndex := 1 } =
      { tokens := [mkEntry "a"], rrIndex := 1 } ∧
    parseTokens "" = [] ∧
    ({ tokens := [mkEntry "a"], rrIndex := 1 } : PoolState).tokens.map (·.token) ≠
      parseTokens "" ∧
    initTokenPool "" { tokens := [mkEntry "a"], rrIndex := 1 } ≠
      { tokens := (parseTokens "").map mkEntry, rrIndex := 0 } := by
  refine ⟨by decide, by decide, by decide, by decide⟩

/-- C7, amended: for every *non-empty* parsed configured list that differs
value-for-value from the held token list, initialization performs the full
replace — fresh entries (`disabledUntil = 0`, `failCount = 0`) and cursor 0.
An empty parsed list leaves the pool untouched (the counterexample). -/
theorem claim_C7 (raw : String) (st : PoolState)
    (h1 : parseTokens raw ≠ [])
    (h2 : parseTokens raw ≠ st.tokens.map (·.token)) :
    initTokenPool raw st = { tokens := (parseTokens raw).map mkEntry, rrIndex := 0 } := by
  unfold initTokenPool
  rw [if_neg (by simpa using h1), if_neg (fun h => h2 h.symm)]

/-- C7 witness: a one-token pool replaced by a differing two-token source. -/
theorem claim_C7_witness :
    initTokenPool "a b" { tokens := [mkEntry "c"], rrIndex := 0 } =
      { tokens := [mkEntry "a", mkEntry "b"], rrIndex := 0 } := by
  rw [claim_C7 "a b" _ (by decide) (by decide)]
  rfl

/-! ## Claim C8 — chat content normalization -/

/-- C8, confirmed: `normalizeContent` is total (always yields some string);
a plain-string content value normalizes to exactly that string; the array
`[\x7btext: "a"\x7d, \x7btext: "b"\x7d]` normalizes to the concatenation
`"ab"`. -/
theorem claim_C8 :
    (∀ v : JSValue, ∃ s : String, normalizeContent v = s) ∧
    (∀ s : String, normalizeContent (JSValue.str s) = s) ∧
    normalizeContent (JSValue.arr [JSValue.obj [("text", JSValue.str "a")],
      JSValue.obj [("text", JSValue.str "b")]]) = "ab" := by
  refine ⟨fun v => ⟨_, rfl⟩, fun s => rfl, ?_⟩
  show String.join [joinElemString (contentPartValue (JSValue.obj [("text", JSValue.str "a")])),
    joinElemString (contentPartValue (JSValue.obj [("text", JSValue.str "b")]))] = "ab"
  have ha : contentPartValue (JSValue.obj [("text", JSValue.str "a")]) = JSValue.str "a" := by
    simp [contentPartValue, jsTruthy, jsField, lookupField]
  have hb : contentPartValue (JSValue.obj [("text", JSValue.str "b")]) = JSValue.str "b" := by
    simp [contentPartValue, jsTruthy, jsField, lookupField]
  rw [ha, hb]
  show String.join [jsToString (JSValue.str "a"), jsToString (JSValue.str "b")] = "ab"
  rw [show jsToString (JSValue.str "a") = "a" by simp [jsToString],
      show jsToString (JSValue.str "b") = "b" by simp [jsToString]]
  rfl

/-! ## Claim C3 — round-robin rotation -/

/-- With every entry usable, one `getToken` call returns the token at the
cursor and advances the cursor by one (mod the pool size). -/
theorem getToken_enabled_step (ts : List TokenEntry) (r now : Nat)
    (hr : r < ts.length)
    (hen : ∀ e ∈ ts, entryUsable e now = true) :
    getToken { tokens := ts, rrIndex := r } now =
      ((ts[r]?).map (·.token), { tokens := ts, rrIndex := (r + 1) % ts.length }) := by
  cases ts with
  | nil => simp at hr
  | cons e0 tl =>
    have hget : (e0 :: tl)[r]? = some (e0 :: tl)[r] := List.getElem?_eq_getElem hr
    have hmem : (e0 :: tl)[r] ∈ e0 :: tl := List.getElem_mem hr
    have hmod : (r + 0) % (e0 :: tl).length = r := by
      rw [Nat.add_zero]; exact Nat.mod_eq_of_lt hr
    have hscan : scanUsable (e0 :: tl) now r 0 (e0 :: tl).length = some r := by
      show (match (e0 :: tl)[(r + 0) % (e0 :: tl).length]? with
        | some t =>
          if entryUsable t now = true then some ((r + 0) % (e0 :: tl).length)
          else scanUsable (e0 :: tl) now r (0 + 1) tl.length
        | none => none) = some r
      rw [hmod, hget]
      simp [hen _ hmem]
    simp only [getToken]
    rw [hscan]
    simp [hget]

/-- Iterating `getToken` `k` times over an all-usable pool walks the entries
round-robin from the cursor. -/
theorem runGetToken_enabled : ∀ (k : Nat) (ts : List TokenEntry) (r now : Nat),
    r < ts.length → (∀ e ∈ ts, entryUsable e now = true) →
    runGetToken k { tokens := ts, rrIndex := r } now =
      ((List.range k).map (fun i => (ts[(r + i) % ts.length]?).map (·.token)),
       { tokens := ts, rrIndex := (r + k) % ts.length }) := by
  intro k
  induction k with
  | zero =>
    intro ts r now hr _
    simp [runGetToken, Nat.mod_eq_of_lt hr]
  | succ k ih =>
    intro ts r now hr hen
    have hpos : 0 < ts.length := Nat.lt_of_le_of_lt (Nat.zero_le _) hr
    have hr' : (r + 1) % ts.length < ts.length := Nat.mod_lt _ hpos
    have hstep := getToken_enabled_step ts r now hr hen
    have hrec := ih ts ((r + 1) % ts.length) now hr' hen
    show (let (o, st') := getToken { tokens := ts, rrIndex := r } now
          let (os, stF) := runGetToken k st' now
          (o :: os, stF)) = _
    rw [hstep]
    show ((ts[r]?).map (·.token) ::
        (runGetToken k { tokens := ts, rrIndex := (r + 1) % ts.length } now).1,
        (runGetToken k { tokens := ts, rrIndex := (r + 1) % ts.length } now).2) = _
    rw [hrec]
    simp only [Prod.mk.injEq]
    constructor
    · rw [List.range_succ_eq_map, List.map_cons, List.map_map]
      have htail : (fun i => (ts[((r + 1) % ts.length + i) % ts.length]?).map (·.token)) =
          ((fun i => (ts[(r + i) % ts.length]?).map (·.token)) ∘ Nat.succ) := by
        funext i
        show (ts[((r + 1) % ts.length + i) % ts.length]?).map (·.token) =
          (ts[(r + Nat.succ i) % ts.length]?).map (·.token)
        rw [Nat.mod_add_mod]
        have he : r + 1 + i = r + Nat.succ i := by omega
        rw [he]
      rw [htail]
      simp [Nat.mod_eq_of_lt hr]
    · rw [Nat.mod_add_mod]
      have he : r + 1 + k = r + (k + 1) := by omega
      rw [he]

/-- One full round of the walk equals the pool rotated to the cursor. -/
theorem walk_block_eq_rotate (ts : List TokenEntry) (r : Nat) (hr : r < ts.length) :
    (List.range ts.length).map (fun i => (ts[(r + i) % ts.length]?).map (·.token)) =
      (ts.rotate r).map (fun e => some e.token) := by
  have hpos : 0 < ts.length := Nat.lt_of_le_of_lt (Nat.zero_le _) hr
  apply List.ext_getElem?
  intro i
  by_cases hi : i < ts.length
  · rw [List.getElem?_map, List.getElem?_map, List.getElem?_range hi,
        List.getElem?_rotate hi]
    have hidx : (i + r) % ts.length < ts.length := Nat.mod_lt _ hpos
    simp only [Option.map_some']
    have hcomm : r + i = i + r := by omega
    rw [hcomm, List.getElem?_eq_getElem hidx]
    rfl
  · have h1 : ((List.range ts.length).map
        (fun i => (ts[(r + i) % ts.length]?).map (·.token)))[i]? = none := by
      rw [List.getElem?_eq_none]
      simpa using Nat.le_of_not_lt hi
    have h2 : ((ts.rotate r).map (fun e => some e.token))[i]? = none := by
      rw [List.getElem?_eq_none]
      simp only [List.length_map, List.length_rotate]
      exact Nat.le_of_not_lt hi
    rw [h1, h2]

/-- Counting is invariant under permutation (stated against the `BEq`
instance this development's statements elaborate to). -/
theorem countOption_perm {l1 l2 : List (Option String)} (h : List.Perm l1 l2)
    (a : Option String) : l1.count a = l2.count a := h.countP_eq _

/-- Counting `some a` among `some`-wrapped elements counts `a`. -/
theorem count_map_some (l : List String) (a : String) :
    (l.map some).count (some a) = l.count a := by
  induction l with
  | nil => rfl
  | cons x xs ih =>
    rw [List.map_cons, List.count_cons, List.count_cons, ih]
    rfl

/-- Over `2N` walk steps, each token of a duplicate-free pool appears exactly
twice. -/
theorem walk_count_two (ts : List TokenEntry) (r : Nat) (hr : r < ts.length)
    (hnd : (ts.map (·.token)).Nodup) (e : TokenEntry) (he : e ∈ ts) :
    ((List.range (2 * ts.length)).map
      (fun i => (ts[(r + i) % ts.length]?).map (·.token))).count (some e.token) = 2 := by
  rw [two_mul, List.range_add, List.map_append, List.count_append, List.map_map]
  have hshift : ((fun i => (ts[(r + i) % ts.length]?).map (·.token)) ∘ (ts.length + ·)) =
      (fun i => (ts[(r + i) % ts.length]?).map (·.token)) := by
    funext i
    show (ts[(r + (ts.length + i)) % ts.length]?).map (·.token) =
      (ts[(r + i) % ts.length]?).map (·.token)
    have hre : r + (ts.length + i) = (r + i) + ts.length := by omega
    rw [hre, Nat.add_mod_right]
  rw [hshift, walk_block_eq_rotate ts r hr]
  have hperm : List.Perm ((ts.rotate r).map (fun e => some e.token))
      (ts.map (fun e => some e.token)) := (List.rotate_perm ts r).map _
  rw [countOption_perm hperm]
  have hmm : ts.map (fun e => some e.token) = (ts.map (·.token)).map some := by
    rw [List.map_map]; rfl
  rw [hmm, count_map_some, List.count_eq_one_of_mem hnd (List.mem_map_of_mem _ he)]

/-- C3, confirmed: on a pool of `N` distinct tokens, none disabled, with no
failure reports interleaved, `2N` successive `getToken` calls follow the
insertion order round-robin starting at the rotation cursor (the `i`-th call
returns the entry at index `(rrIndex + i) mod N`), and every entry's token is
returned exactly twice. -/
theorem claim_C3 (st : PoolState) (now : Nat)
    (hr : st.rrIndex < st.tokens.length)
    (hnd : (st.tokens.map (·.token)).Nodup)
    (hen : ∀ e ∈ st.tokens, entryUsable e now = true) :
    (∀ i, i < 2 * st.tokens.length →
      ((runGetToken (2 * st.tokens.length) st now).1)[i]? =
        some ((st.tokens[(st.rrIndex + i) % st.tokens.length]?).map (·.token))) ∧
    (∀ e ∈ st.tokens,
      ((runGetToken (2 * st.tokens.length) st now).1).count (some e.token) = 2) := by
  obtain ⟨ts, r⟩ := st
  simp only at hr hnd hen ⊢
  rw [runGetToken_enabled (2 * ts.length) ts r now hr hen]
  constructor
  · intro i hi
    simp only [List.getElem?_map, List.getElem?_range hi]
    rfl
  · intro e he
    exact walk_count_two ts r hr hnd e he

/-- C3 witness: a fresh two-token pool; four selections return token `"b"`
exactly twice (and likewise `"a"`, by the same theorem). -/
theorem claim_C3_witness :
    ((runGetToken 4 { tokens := [mkEntry "a", mkEntry "b"], rrIndex := 0 } 0).1).count
      (some "b") = 2 :=
  (claim_C3 { tokens := [mkEntry "a", mkEntry "b"], rrIndex := 0 } 0
    (by decide) (by decide) (by decide)).2 (mkEntry "b") (by decide)

/-! ## Claim C1 — stream termination frames -/

/-- When the forwarding loop runs to upstream end-of-body without a thrown
error, the writes end with the final `stop` frame and the `data: [DONE]`
sentinel. -/
theorem relayGo_no_error (tp : String → Option JSValue) :
    ∀ (events : List ReadEvent) (buf : List Char),
      (relayGo tp buf events).2 = false →
      ∃ ws, (relayGo tp buf events).1 =
        ws ++ [Frame.chunkFrame none (some "stop"), Frame.doneSentinel] := by
  intro events
  induction events with
  | nil =>
    intro buf _
    exact ⟨if buf.isEmpty then [] else [Frame.chunkFrame (some buf.asString) none], rfl⟩
  | cons ev rest ih =>
    intro buf herr
    cases ev with
    | errRead => simp [relayGo] at herr
    | chunk s =>
      rcases hpb : processBuf tp (buf ++ s) with ⟨fs, buf1⟩
      by_cases hflush : 2048 < buf1.length ∧ '\n' ∉ buf1
      · have hgo : relayGo tp buf (ReadEvent.chunk s :: rest) =
            (fs ++ [Frame.chunkFrame (some buf1.asString) none] ++ (relayGo tp [] rest).1,
             (relayGo tp [] rest).2) := by
          simp [relayGo, hpb, hflush]
        rw [hgo] at herr ⊢
        obtain ⟨ws, hws⟩ := ih [] herr
        exact ⟨fs ++ [Frame.chunkFrame (some buf1.asString) none] ++ ws, by
          rw [hws]; simp⟩
      · have hgo : relayGo tp buf (ReadEvent.chunk s :: rest) =
            (fs ++ [] ++ (relayGo tp buf1 rest).1, (relayGo tp buf1 rest).2) := by
          simp [relayGo, hpb, hflush]
        rw [hgo] at herr ⊢
        obtain ⟨ws, hws⟩ := ih buf1 herr
        exact ⟨fs ++ [] ++ ws, by rw [hws]; simp⟩

/-- C1, amended.  The claim requires the final empty-delta `stop` frame and
the `data: [DONE]` sentinel on *every* loop exit, including error exits.  On
the code those writes sit inside the `try` block after the loop, with no
`catch`: a thrown read (or write) error skips them.  Only the keep-alive
`clearInterval` lives in `finally` and runs on every exit.  Amended: the
keep-alive timer is released on every exit path, and on every *non-error*
exit (upstream end-of-body) the relay emits the final `stop` frame followed
by `data: [DONE]`; on an error exit it emits neither. -/
theorem claim_C1 (tp : String → Option JSValue) (events : List ReadEvent) :
    (streamAsOpenAI tp events).heartbeatCleared = true ∧
    ((streamAsOpenAI tp events).errored = false →
      ∃ ws, (streamAsOpenAI tp events).writes =
        ws ++ [Frame.chunkFrame none (some "stop"), Frame.doneSentinel]) := by
  refine ⟨rfl, fun herr => ?_⟩
  have herr' : (relayGo tp [] events).2 = false := herr
  obtain ⟨ws, hws⟩ := relayGo_no_error tp events [] herr'
  refine ⟨Frame.chunkFrame (some "") none :: ws, ?_⟩
  show Frame.chunkFrame (some "") none :: (relayGo tp [] events).1 = _
  rw [hws]
  rfl

/-- C1, counterexample: a single failed read.  The loop exits by the thrown
error; the keep-alive timer is released (the `finally`), but no final `stop`
frame and no `data: [DONE]` sentinel are written — only the initial open
frame went out — contradicting the claim's "this happens on error exit paths
as well". -/
theorem claim_C1_counterexample :
    (streamAsOpenAI tpNone [ReadEvent.errRead]).errored = true ∧
    (streamAsOpenAI tpNone [ReadEvent.errRead]).heartbeatCleared = true ∧
    (streamAsOpenAI tpNone [ReadEvent.errRead]).writes =
      [Frame.chunkFrame (some "") none] ∧
    Frame.chunkFrame none (some "stop") ∉ (streamAsOpenAI tpNone [ReadEvent.errRead]).writes ∧
    Frame.doneSentinel ∉ (streamAsOpenAI tpNone [ReadEvent.errRead]).writes := by
  refine ⟨rfl, rfl, rfl, by decide, by decide⟩

/-- C1 witness: the amended claim at a concrete one-chunk error-free run. -/
theorem claim_C1_witness :
    (streamAsOpenAI tpNone [ReadEvent.chunk "x\n".data]).heartbeatCleared = true ∧
    ∃ ws, (streamAsOpenAI tpNone [ReadEvent.chunk "x\n".data]).writes =
      ws ++ [Frame.chunkFrame none (some "stop"), Frame.doneSentinel] :=
  ⟨(claim_C1 tpNone [ReadEvent.chunk "x\n".data]).1,
   (claim_C1 tpNone [ReadEvent.chunk "x\n".data]).2 rfl⟩

/-! ## Claim C4 — end-of-stream sentinel -/

/-- C4, counterexample.  The claim says that once `data: [DONE]` is observed
the relay stops forwarding and emits no further content frames from later
upstream data.  On the code the sentinel's `break` only leaves the *inner*
line loop (after clearing the buffer); the outer read loop continues, so a
subsequent chunk (`hello\n`) is still forwarded as a content frame after the
sentinel. -/
theorem claim_C4_counterexample :
    (streamAsOpenAI tpNone [ReadEvent.chunk "data: [DONE]\n".data,
        ReadEvent.chunk "hello\n".data]).writes =
      [Frame.chunkFrame (some "") none, Frame.chunkFrame (some "hello\n") none,
       Frame.chunkFrame none (some "stop"), Frame.doneSentinel] ∧
    Frame.chunkFrame (some "hello\n") none ∈
      (streamAsOpenAI tpNone [ReadEvent.chunk "data: [DONE]\n".data,
        ReadEvent.chunk "hello\n".data]).writes := by
  refine ⟨rfl, by decide⟩

/-- C4, amended.  On seeing the sentinel line the relay discards the current
buffer — the remaining complete lines and the partial line — and emits no
further frames *from that buffered data*; but the read loop continues, and
content from subsequent chunks is forwarded again (third conjunct, for every
parser). -/
theorem claim_C4 :
    (∀ (tp : String → Option JSValue) (rest : List (List Char)),
      handleLines tp ("data: [DONE]".data :: rest) = ([], true)) ∧
    (∀ (tp : String → Option JSValue) (buf : List Char) (rest : List (List Char)),
      (splitLines buf).1 = "data: [DONE]".data :: rest →
      processBuf tp buf = ([], [])) ∧
    (∀ tp : String → Option JSValue,
      (streamAsOpenAI tp [ReadEvent.chunk "data: [DONE]\n".data,
          ReadEvent.chunk "hello\n".data]).writes =
        [Frame.chunkFrame (some "") none, Frame.chunkFrame (some "hello\n") none,
         Frame.chunkFrame none (some "stop"), Frame.doneSentinel]) := by
  refine ⟨fun tp rest => rfl, ?_, fun tp => rfl⟩
  intro tp buf rest h
  unfold processBuf
  rcases hs : splitLines buf with ⟨lines, leftover⟩
  rw [hs] at h
  simp only at h
  subst h
  rfl

/-- C4 witness: the amended discard property at a concrete buffer whose
first complete line is the sentinel and which carries a trailing unterminated
line; everything is discarded. -/
theorem claim_C4_witness :
    processBuf tpNone "data: [DONE]\nleftover".data = ([], []) :=
  claim_C4.2.1 tpNone "data: [DONE]\nleftover".data [] rfl

/-! ## Claim C5 — HTTP failure classification -/

/-- C5, counterexample.  The claim says any attempt receiving an HTTP-level
failure with a non-retryable status (e.g. 400) surfaces the error
immediately, consuming no further attempts.  On the code, `readJsonSafe` is
consulted *before* the `r.ok` check: a 400 response whose JSON body carries
`success: false` takes the application-envelope branch — reported as a 502
failure and retried — so a second upstream call is issued and the 400 is
never surfaced.  Here attempt 1 is exactly such a response, and the handler
goes on to succeed on attempt 2 with two upstream calls made. -/
theorem claim_C5_counterexample :
    isRetryableStatus 400 = false ∧
    chatHandler 3 ⟨.arr [], none, .null, .null, .null, .null, ""⟩
      [⟨.resp ⟨400, .obj [("success", .bool false),
                          ("error", .obj [("message", .str "bad request")])], "", false⟩,
        .resp ⟨400, .null, "", false⟩⟩,
       ⟨.resp ⟨200, .obj [("result", .obj [("message", .obj [("content", .str "hi")])])],
              "", false⟩,
        .resp ⟨200, .null, "", false⟩⟩] =
      ⟨.okJson "hi", [(false, 502), (true, 200)], 2⟩ := by
  exact ⟨by decide, rfl⟩

/-- C5, amended: for an attempt whose upstream response is *not* a
`success:false` JSON envelope, HTTP failures are classified by status —
401/403/429/5xx are reported and the loop continues with the next attempt,
any other failing status is surfaced immediately with exactly one upstream
call made and no further attempts consumed (first conjunct: standard flow;
second: web-search flow).  A failing response that *is* a `success:false`
envelope (message not the no-implementation marker) is instead reported as
a 502 application-level failure and retried, whatever its status (third
conjunct — the corner the counterexample exhibits). -/
theorem claim_C5 :
    (∀ (ws : Bool) (a : AttemptIn) (rest : List AttemptIn) (fuel ls : Nat)
        (lm : Option JSValue) (r : UpResp),
      a.primary = .resp r → isEnvelopeFailure r.json = false → r.ok = false →
      (isRetryableStatus r.status = true →
        chatLoop ws false (fuel + 1) (a :: rest) ls lm =
          { result := (chatLoop ws false fuel rest r.status (some (httpFailMsg r))).result,
            reports := (false, r.status) ::
              (chatLoop ws false fuel rest r.status (some (httpFailMsg r))).reports,
            calls := 1 + (chatLoop ws false fuel rest r.status (some (httpFailMsg r))).calls }) ∧
      (isRetryableStatus r.status = false →
        chatLoop ws false (fuel + 1) (a :: rest) ls lm =
          { result := .err r.status (httpFailMsg r), reports := [(false, r.status)],
            calls := 1 })) ∧
    (∀ (ws : Bool) (a : AttemptIn) (rest : List AttemptIn) (fuel ls : Nat)
        (lm : Option JSValue) (r : UpResp),
      a.legacy = .resp r → isEnvelopeFailure r.json = false → r.ok = false →
      (isRetryableStatus r.status = true →
        chatLoop ws true (fuel + 1) (a :: rest) ls lm =
          { result := (chatLoop ws true fuel rest r.status (some (httpFailMsg r))).result,
            reports := (false, r.status) ::
              (chatLoop ws true fuel rest r.status (some (httpFailMsg r))).reports,
            calls := 1 + (chatLoop ws true fuel rest r.status (some (httpFailMsg r))).calls }) ∧
      (isRetryableStatus r.status = false →
        chatLoop ws true (fuel + 1) (a :: rest) ls lm =
          { result := .err r.status (httpFailMsg r), reports := [(false, r.status)],
            calls := 1 })) ∧
    (∀ (ws : Bool) (a : AttemptIn) (rest : List AttemptIn) (fuel ls : Nat)
        (lm : Option JSValue) (r : UpResp),
      a.primary = .resp r → isEnvelopeFailure r.json = true →
      isNoImplError (envMsg r.json) = false → r.ok = false →
      chatLoop ws false (fuel + 1) (a :: rest) ls lm =
        { result := (chatLoop ws false fuel rest 502 (some (envMsg r.json))).result,
          reports := (false, 502) ::
            (chatLoop ws false fuel rest 502 (some (envMsg r.json))).reports,
          calls := 1 + (chatLoop ws false fuel rest 502 (some (envMsg r.json))).calls }) := by
  refine ⟨?_, ?_, ?_⟩
  · intro ws a rest fuel ls lm r ha henv hok
    constructor
    · intro hr
      have hstep : attemptStep ws false a =
          .continueNext [(false, r.status)] 1 r.status (httpFailMsg r) := by
        simp [attemptStep, primaryStep, ha, henv, hok, hr]
      simp [chatLoop, hstep]
    · intro hr
      have hstep : attemptStep ws false a =
          .finished [(false, r.status)] 1 (.err r.status (httpFailMsg r)) := by
        simp [attemptStep, primaryStep, ha, henv, hok, hr]
      simp [chatLoop, hstep]
  · intro ws a rest fuel ls lm r ha henv hok
    constructor
    · intro hr
      have hstep : attemptStep ws true a =
          .continueNext [(false, r.status)] 1 r.status (httpFailMsg r) := by
        simp [attemptStep, legacyStep, ha, henv, hok, hr]
      simp [chatLoop, hstep]
    · intro hr
      have hstep : attemptStep ws true a =
          .finished [(false, r.status)] 1 (.err r.status (httpFailMsg r)) := by
        simp [attemptStep, legacyStep, ha, henv, hok, hr]
      simp [chatLoop, hstep]
  · intro ws a rest fuel ls lm r ha henv hni hok
    have hstep : attemptStep ws false a =
        .continueNext [(false, 502)] 1 502 (envMsg r.json) := by
      simp [attemptStep, primaryStep, ha, henv, hok, hni]
    simp [chatLoop, hstep]

/-- C5 witness: a non-retryable plain 404 surfaces immediately with a single
upstream call. -/
theorem claim_C5_witness :
    chatLoop false false 3
      [⟨.resp ⟨404, .null, "nf", false⟩, .resp ⟨404, .null, "nf", false⟩⟩] 502 none =
      ⟨.err 404 (httpFailMsg ⟨404, .null, "nf", false⟩), [(false, 404)], 1⟩ :=
  (claim_C5.1 false _ [] 2 502 none ⟨404, .null, "nf", false⟩ rfl rfl rfl).2 rfl

/-! ## Claim C10 — streaming activation gate -/

/-- Without the stream flag, the legacy-call processing never hands off to
the stream relay. -/
theorem legacyStep_no_streamed (cr : CallResult) (reps : List (Bool × Nat)) (c : Nat)
    (res : HResult) (h : legacyStep false cr = .finished reps c res) :
    res ≠ HResult.streamed := by
  cases cr with
  | thrown m => simp [legacyStep] at h
  | resp r =>
    by_cases henv : isEnvelopeFailure r.json = true
    · simp [legacyStep, henv] at h
    · by_cases hok : r.ok = true
      · simp [legacyStep, henv, hok] at h
        obtain ⟨-, -, hres⟩ := h
        subst hres
        simp
      · by_cases hr : isRetryableStatus r.status = true
        · simp [legacyStep, henv, hok, hr] at h
        · simp [legacyStep, henv, hok, hr] at h
          obtain ⟨-, -, hres⟩ := h
          subst hres
          simp

/-- Without the stream flag, the standard-flow processing never hands off to
the stream relay. -/
theorem primaryStep_no_streamed (a : AttemptIn) (reps : List (Bool × Nat)) (c : Nat)
    (res : HResult) (h : primaryStep false a = .finished reps c res) :
    res ≠ HResult.streamed := by
  cases ha : a.primary with
  | thrown m => simp [primaryStep, ha] at h
  | resp r =>
    by_cases henv : isEnvelopeFailure r.json = true
    · by_cases hni : isNoImplError (envMsg r.json) = true
      · cases hl : legacyStep false a.legacy with
        | finished reps2 c2 res2 =>
          simp [primaryStep, ha, henv, hni, hl] at h
          obtain ⟨-, -, hres⟩ := h
          subst hres
          exact legacyStep_no_streamed a.legacy reps2 c2 res2 hl
        | continueNext reps2 c2 ls2 lm2 =>
          simp [primaryStep, ha, henv, hni, hl] at h
      · simp [primaryStep, ha, henv, hni] at h
    · by_cases hok : r.ok = true
      · simp [primaryStep, ha, henv, hok] at h
        obtain ⟨-, -, hres⟩ := h
        subst hres
        simp
      · by_cases hr : isRetryableStatus r.status = true
        · simp [primaryStep, ha, henv, hok, hr] at h
        · simp [primaryStep, ha, henv, hok, hr] at h
          obtain ⟨-, -, hres⟩ := h
          subst hres
          simp

/-- Without the stream flag, the attempt loop never results in a streaming
hand-off. -/
theorem chatLoop_no_streamed (wws : Bool) :
    ∀ (fuel : Nat) (atts : List AttemptIn) (ls : Nat) (lm : Option JSValue),
      (chatLoop false wws fuel atts ls lm).result ≠ HResult.streamed := by
  intro fuel
  induction fuel with
  | zero => intro atts ls lm; simp [chatLoop, exhaustedErr]
  | succ k ih =>
    intro atts ls lm
    cases atts with
    | nil => simp [chatLoop, exhaustedErr]
    | cons a rest =>
      have hunfold : chatLoop false wws (k + 1) (a :: rest) ls lm =
          match attemptStep false wws a with
          | .finished reps c res => { result := res, reports := reps, calls := c }
          | .continueNext reps c ls' lm' =>
            { result := (chatLoop false wws k rest ls' (some lm')).result,
              reports := reps ++ (chatLoop false wws k rest ls' (some lm')).reports,
              calls := c + (chatLoop false wws k rest ls' (some lm')).calls } := rfl
      rw [hunfold]
      cases hstep : attemptStep false wws a with
      | finished reps c res =>
        show res ≠ HResult.streamed
        cases hwws : wws with
        | true =>
          rw [hwws] at hstep
          have hl : legacyStep false a.legacy = .finished reps c res := by
            simpa [attemptStep] using hstep
          exact legacyStep_no_streamed a.legacy reps c res hl
        | false =>
          rw [hwws] at hstep
          have hp : primaryStep false a = .finished reps c res := by
            simpa [attemptStep] using hstep
          exact primaryStep_no_streamed a reps c res hp
      | continueNext reps c ls' lm' =>
        show (chatLoop false wws k rest ls' (some lm')).result ≠ HResult.streamed
        exact ih rest ls' (some lm')

/-- C10, confirmed: with `stream: true` but an `Accept` header not containing
`text/event-stream` (case-insensitively, as the source lowercases the header
before checking), the request is handled as non-streaming — the computed
`wantStream` flag is false, the primary upstream args carry `stream: false`,
and no outcome of the attempt loop is a streaming hand-off.  Conversely, a
streaming hand-off can only arise when `body.stream === true` and the
lowercased `Accept` header contains `text/event-stream`. -/
theorem claim_C10 :
    (∀ (req : ChatIn) (allowTempEnv : Bool) (maxAttempts : Nat)
        (attempts : List AttemptIn),
      req.streamField = .bool true →
      containsSub (lowerChars req.accept.data) "text/event-stream".data = false →
      wantStreamOf req = false ∧
      (mkPrimaryArgs allowTempEnv req).stream = false ∧
      (chatHandler maxAttempts req attempts).result ≠ HResult.streamed) ∧
    (∀ (req : ChatIn) (maxAttempts : Nat) (attempts : List AttemptIn),
      (chatHandler maxAttempts req attempts).result = HResult.streamed →
      req.streamField = .bool true ∧
      containsSub (lowerChars req.accept.data) "text/event-stream".data = true) := by
  constructor
  · intro req allowTempEnv maxAttempts attempts _ hacc
    have hw : wantStreamOf req = false := by
      unfold wantStreamOf
      rw [hacc, Bool.and_false]
    refine ⟨hw, ?_, ?_⟩
    · show wantStreamOf req = false
      exact hw
    · unfold chatHandler
      cases hm : req.messages <;> simp only []
      case arr l =>
        rw [hw]
        exact chatLoop_no_streamed _ _ _ _ _
      all_goals simp
  · intro req maxAttempts attempts h
    have hw : wantStreamOf req = true := by
      by_contra hw
      have hw' : wantStreamOf req = false := by
        cases hws : wantStreamOf req
        · rfl
        · exact absurd hws hw
      unfold chatHandler at h
      cases hm : req.messages <;> rw [hm] at h <;> simp only [] at h
      case arr l =>
        rw [hw'] at h
        exact chatLoop_no_streamed _ _ _ _ _ h
      all_goals simp_all
    unfold wantStreamOf at hw
    rw [Bool.and_eq_true] at hw
    obtain ⟨hmatch, hacc⟩ := hw
    refine ⟨?_, hacc⟩
    cases hsf : req.streamField
    case bool b =>
      cases b
      · rw [hsf] at hmatch; simp at hmatch
      · rfl
    all_goals (rw [hsf] at hmatch; simp at hmatch)

/-- C10 witness: `stream: true` with `Accept: application/json` yields the
non-streaming treatment on a concrete run. -/
theorem claim_C10_witness :
    wantStreamOf ⟨.arr [], none, .bool true, .null, .null, .null, "application/json"⟩ = false ∧
    (mkPrimaryArgs false
      ⟨.arr [], none, .bool true, .null, .null, .null, "application/json"⟩).stream = false ∧
    (chatHandler 3 ⟨.arr [], none, .bool true, .null, .null, .null, "application/json"⟩
      [⟨.resp ⟨200, .obj [("result", .str "ok")], "", true⟩,
        .resp ⟨200, .null, "", true⟩⟩]).result ≠ HResult.streamed :=
  claim_C10.1 ⟨.arr [], none, .bool true, .null, .null, .null, "application/json"⟩
    false 3 _ rfl (by decide)

/-! ## Claim C9 — embeddings normalization of the canonical shape -/

/-- Overriding a key with the value it already holds (at its first
occurrence) leaves the field list unchanged. -/
theorem setField_self (fs : List (String × JSValue)) (k : String) (v : JSValue)
    (hv : lookupField k fs = v) (hnn : v.isNull = false) :
    setField fs k v = fs := by
  induction fs with
  | nil => simp [lookupField] at hv; rw [← hv] at hnn; simp [JSValue.isNull] at hnn
  | cons kv rest ih =>
    obtain ⟨k', v'⟩ := kv
    by_cases hk : k' = k
    · subst hk
      simp [lookupField] at hv
      simp [setField, hv]
    · simp only [lookupField, hk, if_false, if_neg] at hv
      simp only [setField, hk, if_neg, if_false]
      rw [ih hv]

/-- Overriding a key does not disturb the other keys. -/
theorem lookupField_setField_ne (fs : List (String × JSValue)) (k k' : String)
    (v : JSValue) (hne : k' ≠ k) :
    lookupField k' (setField fs k v) = lookupField k' fs := by
  induction fs with
  | nil =>
    show lookupField k' [(k, v)] = lookupField k' []
    simp only [lookupField]
    rw [if_neg (fun h => hne h.symm)]
  | cons kv rest ih =>
    obtain ⟨k0, v0⟩ := kv
    by_cases hk : k0 = k
    · subst hk
      have hk0 : k0 ≠ k' := fun h => hne h.symm
      simp [setField, lookupField, hk0]
    · simp [setField, lookupField, hk, ih]

/-- After overriding a key, looking it up yields the new value. -/
theorem lookupField_setField_self (fs : List (String × JSValue)) (k : String)
    (v : JSValue) : lookupField k (setField fs k v) = v := by
  induction fs with
  | nil => simp [setField, lookupField]
  | cons kv rest ih =>
    obtain ⟨k0, v0⟩ := kv
    by_cases hk : k0 = k
    · subst hk
      simp [setField, lookupField]
    · simp [setField, lookupField, hk, ih]

/-- C9, counterexample.  The claim says an already-canonical embeddings list
is returned unchanged except that `model` is filled in *when absent*.  The
code computes `model: result.model || selectedModel` — JS truthiness — so a
*present but empty-string* `model` field is also overwritten with the
selected model, and the canonical input is not returned unchanged. -/
theorem claim_C9_counterexample :
    normalizeEmbResult
      (.obj [("object", .str "list"),
             ("data", .arr [.obj [("index", .num 0), ("object", .str "embedding"),
                                  ("embedding", .arr [.num 1, .num 2])]]),
             ("model", .str "")])
      "text-embedding-3-small" =
      .ok (.obj [("object", .str "list"),
                 ("data", .arr [.obj [("index", .num 0), ("object", .str "embedding"),
                                      ("embedding", .arr [.num 1, .num 2])]]),
                 ("model", .str "text-embedding-3-small")]) ∧
    jsField
      (.obj [("object", .str "list"),
             ("data", .arr [.obj [("index", .num 0), ("object", .str "embedding"),
                                  ("embedding", .arr [.num 1, .num 2])]]),
             ("model", .str "")]) "model" = .str "" ∧
    ("text-embedding-3-small" : String) ≠ "" := by
  exact ⟨rfl, rfl, by decide⟩

/-- C9, amended: for a result in the canonical list shape, the normalizer
returns it unchanged when `model` is present as a non-empty string, and
returns it with only the `model` key set to the selected model when `model`
is absent (or nullish); a present-but-falsy `model` (empty string) is also
overwritten (the counterexample). -/
theorem claim_C9 :
    (∀ (fs : List (String × JSValue)) (sm : String) (dl : List JSValue) (m : String),
      jsField (.obj fs) "data" = .arr dl →
      jsField (.obj fs) "model" = .str m → m ≠ "" →
      normalizeEmbResult (.obj fs) sm = .ok (.obj fs)) ∧
    (∀ (fs : List (String × JSValue)) (sm : String) (dl : List JSValue),
      jsField (.obj fs) "data" = .arr dl →
      jsField (.obj fs) "model" = .null →
      normalizeEmbResult (.obj fs) sm = .ok (.obj (setField fs "model" (.str sm))) ∧
      (∀ k, k ≠ "model" →
        jsField (.obj (setField fs "model" (.str sm))) k = jsField (.obj fs) k) ∧
      jsField (.obj (setField fs "model" (.str sm))) "model" = .str sm) := by
  constructor
  · intro fs sm dl m hdata hmodel hm
    have hm' : (m == "") = false := by
      cases hbe : m == "" with
      | true => exact absurd (by simpa using hbe) hm
      | false => rfl
    unfold normalizeEmbResult
    rw [show jsField (JSValue.obj fs) "data" = lookupField "data" fs from rfl] at hdata
    rw [show jsField (JSValue.obj fs) "model" = lookupField "model" fs from rfl] at hmodel
    simp only [hdata, hmodel, jsField]
    rw [show jsTruthy (JSValue.str m) = !(m == "") from rfl, hm']
    simp only [Bool.not_false, if_true]
    show EmbOut.ok (JSValue.obj (setField fs "model" (JSValue.str m))) =
      EmbOut.ok (JSValue.obj fs)
    rw [setField_self fs "model" (.str m) hmodel (by rfl)]
  · intro fs sm dl hdata hmodel
    refine ⟨?_, ?_, ?_⟩
    · unfold normalizeEmbResult
      rw [show jsField (JSValue.obj fs) "data" = lookupField "data" fs from rfl] at hdata
      rw [show jsField (JSValue.obj fs) "model" = lookupField "model" fs from rfl] at hmodel
      simp only [hdata, hmodel, jsField]
      rfl
    · intro k hk
      show lookupField k (setField fs "model" (.str sm)) = lookupField k fs
      exact lookupField_setField_ne fs "model" k (.str sm) hk
    · show lookupField "model" (setField fs "model" (.str sm)) = .str sm
      exact lookupField_setField_self fs "model" (.str sm)

/-- C9 witness: both amended cases at concrete canonical inputs — a present
non-empty model is preserved, and an absent model is filled in. -/
theorem claim_C9_witness :
    normalizeEmbResult (.obj [("data", .arr []), ("model", .str "m")]) "x" =
      .ok (.obj [("data", .arr []), ("model", .str "m")]) ∧
    normalizeEmbResult (.obj [("data", .arr [])]) "x" =
      .ok (.obj (setField [("data", .arr [])] "model" (.str "x"))) :=
  ⟨claim_C9.1 [("data", .arr []), ("model", .str "m")] "x" [] "m" rfl rfl (by decide),
   (claim_C9.2 [("data", .arr [])] "x" [] rfl rfl).1⟩
